import Mathlib

/-!
Shallow embedding of the aspartam actor framework (src/lib.rs), written to
settle the frozen claims about its specification. Panics of the Rust code are
modelled as `Except.error` carrying the panic message; fallible results as
`Except`/`Option`. The machinery that the repository tests in src/tests.rs
but does not define under src/ (the stop-negotiation lifecycle and the
supervision capability) is modelled from the spec, in definitions whose doc
comments start with "Modelled from the spec:".
-/

namespace Aspartam

/-- Fate of the oneshot reply channel of one envelope, as seen by the caller
of `Addr::send`: either the run loop delivers a reply through it, or the
sender half of the oneshot channel is dropped without a reply ever being
sent (the run loop task unwound or the envelope was destroyed). -/
inductive ReplyFate (R : Type) where
  | delivered (r : R)
  | dropped
deriving DecidableEq

/-- Enqueue half of `MessageQueue::send` (src/lib.rs:100-111): packs the
message and the oneshot sender into an envelope and pushes it onto the
unbounded channel; the push fails exactly when the receiving half, owned by
the run loop, is dead, and the code then panics with the message below.
`receiverAlive` states whether the run loop still owns the live receiver. -/
def MessageQueue.send (receiverAlive : Bool) : Except String Unit :=
  if receiverAlive then Except.ok ()
  else Except.error "Failed to enqueue message for actor. Receiver must be dead."

/-- Awaiting the oneshot receiver and unwrapping, the `resp.await.unwrap()`
of `Addr::send` (src/lib.rs:133): a reply resolves to the reply value, a
broken channel makes `unwrap` panic on the `RecvError`. -/
def oneshotRecvUnwrap : ReplyFate R → Except String R
  | ReplyFate.delivered r => Except.ok r
  | ReplyFate.dropped => Except.error "called unwrap on an Err value: oneshot RecvError"

/-- `Addr::send` (src/lib.rs:127-134): run `MessageQueue::send`, then await
the oneshot receiver and unwrap the result. `mailboxOpen` states whether the
mailbox receiver is still alive; `fate` whether a reply eventually arrives on
the envelope reply channel. -/
def Addr.send (mailboxOpen : Bool) (fate : ReplyFate R) : Except String R :=
  match MessageQueue.send mailboxOpen with
  | Except.ok _ => oneshotRecvUnwrap fate
  | Except.error e => Except.error e

/-- An actor implementation as the claims use it: a state type `S`, the
`started` and `stopped` hooks (src/lib.rs:183-184, default no-ops, here
arbitrary), and one message handler (the `Handler` capability,
src/lib.rs:199-203) taken as a pure function of prior state and message. -/
structure ActorImpl (S M R : Type) where
  started : S → S
  handle : S → M → S × R
  stopped : S → S

/-- `EnvelopeProxy::handle` for `Envelope` (src/lib.rs:56-62): run the
handler on the envelope message, then send the result through the oneshot
sender; if that send fails — exactly when the receiving end was already
dropped — the code panics with the message below. `receiverAlive` states
whether the oneshot receiver still exists. -/
def Envelope.handle (receiverAlive : Bool) (a : ActorImpl S M R) (s : S) (m : M) :
    Except String (S × R) :=
  let sr := a.handle s m
  if receiverAlive then Except.ok sr
  else Except.error "Failed to send response: oneshot::Receiver must be dead."

/-- The actor of the data_sanity test (src/tests.rs:32-74): counts requests
and replies with the successor of the message. -/
def incrementor : ActorImpl Nat Nat Nat :=
  { started := fun s => s
    handle := fun s m => (s + 1, m + 1)
    stopped := fun s => s }

/-- Events observable from one run of `actor_runner_loop`
(src/lib.rs:187-197): the `started` hook, each dispatched envelope together
with its reply, and the `stopped` hook. -/
inductive Event (M R : Type) where
  | startedHook
  | handled (m : M) (r : R)
  | stoppedHook
deriving DecidableEq

/-- Whether an event is the dispatch of an envelope. -/
def Event.isHandled : Event M R → Bool
  | Event.handled _ _ => true
  | _ => false

/-- The messages of the dispatched envelopes of a trace, in dispatch order. -/
def handledMsgsE : List (Event M R) → List M
  | [] => []
  | Event.handled m _ :: es => m :: handledMsgsE es
  | _ :: es => handledMsgsE es

/-- The `while let Some(msg) = msg_rx.recv()` phase of `actor_runner_loop`
(src/lib.rs:193-196) on a mailbox whose last strong address was dropped
while it held `msgs`: `recv` yields each queued envelope in FIFO order, then
`None` once the closed mailbox is drained, after which the `stopped` hook
runs and the loop ends. -/
def runnerRecvLoop (a : ActorImpl S M R) : S → List M → S × List (Event M R)
  | s, [] => (a.stopped s, [Event.stoppedHook])
  | s, m :: ms =>
      let sr := a.handle s m
      let rest := runnerRecvLoop a sr.1 ms
      (rest.1, Event.handled m sr.2 :: rest.2)

/-- `actor_runner_loop` (src/lib.rs:187-197): run the `started` hook, then
the receive loop. The returned state is the actor instance at destruction
time; the returned list is the full event trace of the run loop task. -/
def actor_runner_loop (a : ActorImpl S M R) (s : S) (msgs : List M) :
    S × List (Event M R) :=
  let s1 := a.started s
  let rest := runnerRecvLoop a s1 msgs
  (rest.1, Event.startedHook :: rest.2)

/-- The actor state visible to the handler of the message at position `i`:
`started` applied to the spawn state, then the handler folded over the
earlier messages. -/
def stateAfter (a : ActorImpl S M R) (s : S) (msgs : List M) : S :=
  msgs.foldl (fun st m => (a.handle st m).1) (a.started s)

/-- The body of the forwarding task spawned by `ActorContext::add_stream`
(src/lib.rs:30-34): `while let Some(msg) = s.next().await` pulls the next
stream item and awaits `addr.send(msg)`, discarding the reply. A finite
stream is the list of the items it yields. A panic inside `send` unwinds the
task. The result is the list of items actually sent, in order, together with
the panic, if any, that terminated the task. -/
def forwardLoop (send : M → Except String R) : List M → List M × Option String
  | [] => ([], none)
  | m :: ms =>
      match send m with
      | Except.ok _ =>
          let rest := forwardLoop send ms
          (m :: rest.1, rest.2)
      | Except.error e => ([], some e)

/-- The forwarding task state of `add_stream` (src/lib.rs:29-34): before
spawning, the context upgrades its weak self-address and moves the resulting
strong `addr` into the task; the task owns that strong address until its body
ends, which happens only after the stream yields `None`. `held` records
whether the task still owns the strong address, `remaining` the items the
stream can still yield. -/
structure ForwardTask (M : Type) where
  held : Bool
  remaining : List M
deriving DecidableEq

/-- Task state at spawn time: the strong address is held, the whole stream
is still to come. -/
def ForwardTask.init (items : List M) : ForwardTask M :=
  { held := true, remaining := items }

/-- One step of the forwarding task: forward the next item if the stream
still yields one; once the stream is exhausted the task body ends and the
strong address is dropped. -/
def ForwardTask.step : ForwardTask M → ForwardTask M
  | { held := _, remaining := [] } => { held := false, remaining := [] }
  | { held := h, remaining := _ :: ms } => { held := h, remaining := ms }

/-- The forwarding task state after `k` steps from spawn. -/
def forwardTaskStates (items : List M) : Nat → ForwardTask M
  | 0 => ForwardTask.init items
  | k + 1 => ForwardTask.step (forwardTaskStates items k)

/-- The strong count of the `Arc<MessageQueue>` of the actor: the strong
addresses held outside the task plus the one the task holds. The mailbox
receiver sees closure — `recv` returning `None` once drained — exactly when
this count is zero, since the mpsc sender lives inside the `MessageQueue`
that the `Arc` owns. -/
def totalStrong (ext : Nat) (t : ForwardTask M) : Nat :=
  ext + cond t.held 1 0

/-- Whether the mailbox of the actor is closed: no strong address remains
anywhere, so the mpsc sender is dropped and the run loop can reach the
`stopped` branch. -/
def mailboxClosed (ext : Nat) (t : ForwardTask M) : Bool :=
  totalStrong ext t == 0

/-- The strong-count heap of the `Arc`/`Weak` pair that `Addr` and
`WeakAddr` wrap (src/lib.rs:114-160): the strong count of each mailbox,
indexed by mailbox id. -/
structure ArcWorld where
  strong : Nat → Nat

/-- A strong address: `Addr<T>` (src/lib.rs:114-116), identified by the
mailbox its `Arc<MessageQueue<T>>` points to. -/
structure Addr where
  target : Nat
deriving DecidableEq

/-- A weak address: `WeakAddr<T>` (src/lib.rs:142-144), identified by the
mailbox its `Weak<MessageQueue<T>>` points to. -/
structure WeakAddr where
  target : Nat
deriving DecidableEq

/-- `Addr::downgrade` (src/lib.rs:135-139): `Arc::downgrade` on the shared
message queue — a weak address to the same mailbox, leaving every strong
count unchanged. -/
def Addr.downgrade (w : ArcWorld) (a : Addr) : ArcWorld × WeakAddr :=
  (w, { target := a.target })

/-- `WeakAddr::upgrade` (src/lib.rs:154-160): `Weak::upgrade` on the message
queue, wrapped back into an `Addr`; it succeeds exactly while the strong
count of the target mailbox is positive, minting a new strong reference to
that same mailbox (incrementing its count). -/
def WeakAddr.upgrade (w : ArcWorld) (wa : WeakAddr) : ArcWorld × Option Addr :=
  if 0 < w.strong wa.target then
    ({ strong := fun i => if i = wa.target then w.strong i + 1 else w.strong i },
      some { target := wa.target })
  else (w, none)

/-- `ActorContext::address` (src/lib.rs:17-19): `self.address.upgrade().unwrap()`
on the weak self-address — panics when the upgrade fails, that is, when no
strong address to the actor is alive. `ActorContext::add_stream`
(src/lib.rs:29) performs the same upgrade-and-unwrap before spawning its
forwarding task. -/
def ActorContext.address (w : ArcWorld) (ctx : WeakAddr) :
    Except String (ArcWorld × Addr) :=
  match WeakAddr.upgrade w ctx with
  | (w2, some a) => Except.ok (w2, a)
  | (_, none) => Except.error "called unwrap on a None value"

/-- An `ArcWorld` with no strong reference anywhere. -/
def deadWorld : ArcWorld := { strong := fun _ => 0 }

/-- An `ArcWorld` with one strong reference to every mailbox. -/
def liveWorld : ArcWorld := { strong := fun _ => 1 }

/-- Modelled from the spec: the verdict type of the `stopping` hook
(spec section 4.5). The hook and its verdict type are absent from
src/lib.rs; the repository tests them as `crate::actor::Stopping`
(src/tests.rs:312,444,503). -/
inductive Stopping where
  | Stop
  | Continue
deriving DecidableEq

/-- Modelled from the spec: `ActorState` (spec section 3), the lifecycle
state of one run loop; absent from src/lib.rs, used by src/tests.rs:456-478. -/
inductive ActorState where
  | Starting
  | Running
  | Stopping
  | Stopped
deriving DecidableEq

/-- Modelled from the spec: an actor with the full hook set of spec
sections 4.5 and 6 — `started`, `stopping` returning a verdict, `stopped` —
and one message handler whose third component records whether the handler
invoked the stop request of the context (`ctx.stop()`,
src/tests.rs:383,387). -/
structure LifecycleActor (S M R : Type) where
  started : S → S
  stoppingHook : S → S × Stopping
  stoppedHook : S → S
  handle : S → M → S × R × Bool

/-- Modelled from the spec: the state of one lifecycle run loop: the live
actor instance, the mailbox queue in FIFO order, the lifecycle phase, the
pending stop request, and whether the last strong address was dropped
(mailbox closure). -/
structure RunState (S M : Type) where
  actor : S
  queue : List M
  phase : ActorState
  stopRequested : Bool
  closed : Bool

/-- Events of the lifecycle run loop and of the mailbox. -/
inductive LEvent (M R : Type) where
  | startedHook
  | enqueued (m : M)
  | handled (m : M) (r : R)
  | stoppingInvoked (v : Stopping)
  | restartingInvoked
  | stoppedHook
deriving DecidableEq

/-- Modelled from the spec: one iteration of the lifecycle run loop (spec
section 4.5). In `Starting` the loop runs the `started` hook and enters
`Running`. In `Running` it first checks the stop conditions once per
iteration — (a) mailbox closure, observable only with a drained queue since
`recv` yields every remaining envelope before `None`, or (b) a stop request
from the just-handled message — and moves to `Stopping` if one holds,
leaving the queue untouched; otherwise it pops and dispatches the next
envelope. In `Stopping` it invokes the `stopping` hook on the live
instance: the verdict `Continue` returns to `Running` with the queue intact
and the stop request cleared, the verdict `Stop` runs the `stopped` hook
and terminates. `Stopped` is terminal. -/
def loopStep (a : LifecycleActor S M R) (st : RunState S M) :
    RunState S M × List (LEvent M R) :=
  match st.phase with
  | ActorState.Starting =>
      ({ st with actor := a.started st.actor, phase := ActorState.Running },
        [LEvent.startedHook])
  | ActorState.Running =>
      if st.stopRequested || (st.closed && st.queue.isEmpty) then
        ({ st with phase := ActorState.Stopping }, [])
      else
        match st.queue with
        | [] => (st, [])
        | m :: rest =>
            let hr := a.handle st.actor m
            ({ st with actor := hr.1, queue := rest, stopRequested := hr.2.2 },
              [LEvent.handled m hr.2.1])
  | ActorState.Stopping =>
      match a.stoppingHook st.actor with
      | (s2, Stopping.Continue) =>
          ({ st with
              actor := s2
              phase := ActorState.Running
              stopRequested := false },
            [LEvent.stoppingInvoked Stopping.Continue])
      | (s2, Stopping.Stop) =>
          ({ st with actor := a.stoppedHook s2, phase := ActorState.Stopped },
            [LEvent.stoppingInvoked Stopping.Stop, LEvent.stoppedHook])
  | ActorState.Stopped => (st, [])

/-- Operations interleaved with the run loop: a producer holding a strong
address enqueues an envelope, the last strong address is dropped, or the
loop performs one iteration. -/
inductive MailOp (M : Type) where
  | enq (m : M)
  | close
  | step

/-- Apply one operation: enqueue appends to the mailbox (only possible while
a strong address exists, hence not after closure), closure flips the flag,
and a loop operation defers to the given step function. -/
def applyOpWith (step : RunState S M → RunState S M × List (LEvent M R))
    (st : RunState S M) : MailOp M → RunState S M × List (LEvent M R)
  | MailOp.enq m =>
      if st.closed then (st, [])
      else ({ st with queue := st.queue ++ [m] }, [LEvent.enqueued m])
  | MailOp.close => ({ st with closed := true }, [])
  | MailOp.step => step st

/-- Run a list of interleaved operations, concatenating the event traces. -/
def runOpsWith (step : RunState S M → RunState S M × List (LEvent M R)) :
    RunState S M → List (MailOp M) → RunState S M × List (LEvent M R)
  | st, [] => (st, [])
  | st, op :: ops =>
      let r1 := applyOpWith step st op
      let r2 := runOpsWith step r1.1 ops
      (r2.1, r1.2 ++ r2.2)

/-- The messages of the dispatched envelopes of a lifecycle trace, in
dispatch order. -/
def handledMsgs : List (LEvent M R) → List M
  | [] => []
  | LEvent.handled m _ :: es => m :: handledMsgs es
  | _ :: es => handledMsgs es

/-- The messages enqueued into the mailbox during a lifecycle trace, in
arrival order. -/
def enqueuedMsgs : List (LEvent M R) → List M
  | [] => []
  | LEvent.enqueued m :: es => m :: enqueuedMsgs es
  | _ :: es => enqueuedMsgs es

/-- How many times the `restarting` hook ran during a trace. -/
def countRestarts : List (LEvent M R) → Nat
  | [] => 0
  | LEvent.restartingInvoked :: es => countRestarts es + 1
  | _ :: es => countRestarts es

/-- How many times the `stopped` hook ran during a trace. -/
def countStops : List (LEvent M R) → Nat
  | [] => 0
  | LEvent.stoppedHook :: es => countStops es + 1
  | _ :: es => countStops es

/-- Modelled from the spec: a supervised actor (spec section 4.6) — the
`Supervised` capability and its `restarting` hook are absent from
src/lib.rs and tested in src/tests.rs:559-608. Its `stopping` behavior is
the supervised default: not overridden, resolved by the run loop itself. -/
structure SupervisedActor (S M R : Type) where
  started : S → S
  restarting : S → S
  stoppedHook : S → S
  handle : S → M → S × R × Bool

/-- Modelled from the spec: one iteration of the run loop of a supervised
actor (spec sections 4.6 and 8). `Starting`, `Running` and `Stopped` behave
as in `loopStep`. A stop condition observed while the actor is still
reachable resolves into the default supervised `stopping` behavior: invoke
`restarting` on the live instance — the same instance, mutated in place,
never rebuilt by the spawn-time factory — then `Continue` back to `Running`;
final teardown, a closed and drained mailbox with no strong handle left to
revive, proceeds to the `stopped` hook and destruction, exactly once
(src/tests.rs:594-607: four kills give four restarts and one drop). -/
def supervisedLoopStep (a : SupervisedActor S M R) (st : RunState S M) :
    RunState S M × List (LEvent M R) :=
  match st.phase with
  | ActorState.Starting =>
      ({ st with actor := a.started st.actor, phase := ActorState.Running },
        [LEvent.startedHook])
  | ActorState.Running =>
      if st.stopRequested || (st.closed && st.queue.isEmpty) then
        ({ st with phase := ActorState.Stopping }, [])
      else
        match st.queue with
        | [] => (st, [])
        | m :: rest =>
            let hr := a.handle st.actor m
            ({ st with actor := hr.1, queue := rest, stopRequested := hr.2.2 },
              [LEvent.handled m hr.2.1])
  | ActorState.Stopping =>
      if st.closed && st.queue.isEmpty then
        ({ st with actor := a.stoppedHook st.actor, phase := ActorState.Stopped },
          [LEvent.stoppedHook])
      else
        ({ st with
            actor := a.restarting st.actor
            phase := ActorState.Running
            stopRequested := false },
          [LEvent.restartingInvoked])
  | ActorState.Stopped => (st, [])

/-- The supervised actor of the supervised_lifecycle test
(src/tests.rs:559-608), generalized: the handler of the kill message mutates
the state by `onKill` and requests a stop; the hooks are arbitrary state
mutations. -/
def superviseKill (onStart onKill onRestart onStop : S → S) :
    SupervisedActor S Unit Unit :=
  { started := onStart
    restarting := onRestart
    stoppedHook := onStop
    handle := fun s _ => (onKill s, ((), true)) }

/-- One internally-triggered stop request: enqueue a kill message, dispatch
it (the handler requests the stop), observe the stop condition, negotiate. -/
def killCycle : List (MailOp Unit) :=
  [MailOp.enq (), MailOp.step, MailOp.step, MailOp.step]

/-- The script of the supervised_lifecycle test: start the actor, deliver
`m` consecutive internally-triggered stop requests, drop the last strong
handle, observe closure and tear down. -/
def killScript (m : Nat) : List (MailOp Unit) :=
  [MailOp.step] ++ (List.replicate m killCycle).flatten
    ++ [MailOp.close, MailOp.step, MailOp.step]

/-- The run-loop state at spawn time. -/
def initState (s : S) : RunState S M :=
  { actor := s, queue := [], phase := ActorState.Starting,
    stopRequested := false, closed := false }

/-- A quiescent running state: empty mailbox, no stop request, reachable. -/
def runningState (s : S) : RunState S M :=
  { actor := s, queue := [], phase := ActorState.Running,
    stopRequested := false, closed := false }

/-- `m`-fold iteration of one restart cycle on the actor state. -/
def restartIter (f : S → S) : Nat → S → S
  | 0, s => s
  | k + 1, s => restartIter f k (f s)

/-- A concrete lifecycle actor for witnesses: the stopping hook always
continues. -/
def demoLifecycle : LifecycleActor Nat Nat Nat :=
  { started := fun s => s
    stoppingHook := fun s => (s + 10, Stopping.Continue)
    stoppedHook := fun s => s
    handle := fun s m => (s + m, (s, true)) }

/-- A running state with a pending stop request and a non-empty mailbox. -/
def demoRunningStop : RunState Nat Nat :=
  { actor := 0, queue := [3, 4], phase := ActorState.Running,
    stopRequested := true, closed := false }

/-- A state in stop negotiation with a non-empty mailbox. -/
def demoStoppingSt : RunState Nat Nat :=
  { actor := 5, queue := [9], phase := ActorState.Stopping,
    stopRequested := true, closed := false }

/-- C1: the claim says awaiting `Addr::send` resolves to a `CannotSend`
error when the mailbox is closed or the reply channel breaks, and never
panics on a dead actor. The code panics in both situations: the enqueue
panics when the mailbox receiver is dead, and the `unwrap` of the awaited
reply panics when the reply channel broke; only the live path resolves to
the reply. This is the behavior the repository tests contradict
(src/tests.rs:434-438 asserts `Err(CannotSend)` on a stopped actor). -/
theorem send_to_dead_actor_panics :
    Addr.send (R := Nat) false (ReplyFate.delivered 7)
      = Except.error "Failed to enqueue message for actor. Receiver must be dead."
    ∧ Addr.send (R := Nat) true ReplyFate.dropped
      = Except.error "called unwrap on an Err value: oneshot RecvError"
    ∧ Addr.send (R := Nat) true (ReplyFate.delivered 7) = Except.ok 7 :=
  ⟨rfl, rfl, rfl⟩

/-- C2: the claim says dispatching an envelope whose oneshot receiver was
dropped completes as a no-op. The code instead panics in exactly that case;
the live-receiver path returns the updated state and the reply. -/
theorem envelope_handle_dead_receiver_panics :
    Envelope.handle false incrementor 0 2
      = Except.error "Failed to send response: oneshot::Receiver must be dead."
    ∧ Envelope.handle true incrementor 0 2 = Except.ok (1, 3) :=
  ⟨rfl, rfl⟩

/-- Helper: the receive loop emits the `stopped` hook exactly once, as its
final event. -/
theorem aux_runnerRecvLoop_stopped_last (a : ActorImpl S M R) :
    ∀ (s : S) (msgs : List M), ∃ pre : List (Event M R),
      (runnerRecvLoop a s msgs).2 = pre ++ [Event.stoppedHook]
      ∧ Event.stoppedHook ∉ pre := by
  intro s msgs
  induction msgs generalizing s with
  | nil => exact ⟨[], rfl, by simp⟩
  | cons m ms ih =>
      obtain ⟨pre, hpre, hmem⟩ := ih (a.handle s m).1
      refine ⟨Event.handled m (a.handle s m).2 :: pre, ?_, ?_⟩
      · simp [runnerRecvLoop, hpre]
      · simp [hmem]

/-- C4: after the last strong address is dropped and the mailbox is drained,
the run loop invokes the `stopped` hook exactly once, as the final event of
the run loop task: nothing — in particular no envelope dispatch — follows
it, the loop ends, and the actor instance is destroyed. -/
theorem stopped_hook_exactly_once_then_loop_ends :
    ∀ (S M R : Type) (a : ActorImpl S M R) (s : S) (msgs : List M),
      ∃ pre : List (Event M R),
        (actor_runner_loop a s msgs).2 = pre ++ [Event.stoppedHook]
        ∧ Event.stoppedHook ∉ pre := by
  intro S M R a s msgs
  obtain ⟨pre, hpre, hmem⟩ := aux_runnerRecvLoop_stopped_last a (a.started s) msgs
  refine ⟨Event.startedHook :: pre, ?_, ?_⟩
  · simp [actor_runner_loop, hpre]
  · simp [hmem]

/-- Helper: the receive loop dispatches exactly one envelope per queued
message. -/
theorem aux_runnerRecvLoop_handled_count (a : ActorImpl S M R) :
    ∀ (s : S) (msgs : List M),
      ((runnerRecvLoop a s msgs).2.filter (fun e => e.isHandled)).length
        = msgs.length := by
  intro s msgs
  induction msgs generalizing s with
  | nil => simp [runnerRecvLoop, Event.isHandled]
  | cons m ms ih =>
      have h := ih (a.handle s m).1
      simp [runnerRecvLoop, Event.isHandled] at h ⊢
      exact h

/-- Helper: the event at position `i` of the receive-loop trace is the
dispatch of the message at position `i` of the queue, replied to with the
handler value at the state reached by folding the handler over the earlier
messages. -/
theorem aux_runnerRecvLoop_get (a : ActorImpl S M R) :
    ∀ (s : S) (msgs : List M) (i : Nat) (h : i < msgs.length),
      (runnerRecvLoop a s msgs).2.get? i
        = some (Event.handled (msgs.get ⟨i, h⟩)
            (a.handle ((msgs.take i).foldl (fun st m => (a.handle st m).1) s)
              (msgs.get ⟨i, h⟩)).2) := by
  intro s msgs
  induction msgs generalizing s with
  | nil => intro i h; exact absurd h (by simp)
  | cons m ms ih =>
      intro i h
      cases i with
      | zero => simp [runnerRecvLoop]
      | succ j =>
          have hj : j < ms.length := by simpa using h
          simpa [runnerRecvLoop] using ih (a.handle s m).1 j hj

/-- C5: for each sequence of messages processed by a running actor, the run
loop dispatches the envelopes serially, one handler at a time: the trace has
exactly one dispatch event per message, and the dispatch of the message at
position `i` produces exactly the reply of the pure handler applied to the
state accumulated from the prior messages and to that message. -/
theorem replies_at_most_once_pure_serial :
    ∀ (S M R : Type) (a : ActorImpl S M R) (s : S) (msgs : List M),
      (((actor_runner_loop a s msgs).2.filter (fun e => e.isHandled)).length
        = msgs.length)
      ∧ ∀ (i : Nat) (h : i < msgs.length),
          (actor_runner_loop a s msgs).2.get? (i + 1)
            = some (Event.handled (msgs.get ⟨i, h⟩)
                (a.handle (stateAfter a s (msgs.take i)) (msgs.get ⟨i, h⟩)).2) := by
  intro S M R a s msgs
  constructor
  · simpa [actor_runner_loop, Event.isHandled]
      using aux_runnerRecvLoop_handled_count a (a.started s) msgs
  · intro i h
    simpa [actor_runner_loop, stateAfter]
      using aux_runnerRecvLoop_get a (a.started s) msgs i h

/-- Witness for C5: the concrete incrementor actor on the message sequence
`[5, 6]`: two dispatch events, and the first one replies `6`. -/
theorem replies_at_most_once_pure_serial_witness :
    (0 < [5, 6].length)
    ∧ (actor_runner_loop incrementor 0 [5, 6]).2.get? 1
        = some (Event.handled 5
            (incrementor.handle (stateAfter incrementor 0 ([5, 6].take 0)) 5).2) :=
  ⟨by decide,
    (replies_at_most_once_pure_serial Nat Nat Nat incrementor 0 [5, 6]).2 0 (by decide)⟩

/-- Counterexample for C6: at a delivery failure — here, the mailbox
receiver is dead when the forwarding task sends — the forwarding loop does
not terminate silently without a failure, as the claim states: the `send`
inside it panics and the panic unwinds the task. -/
theorem add_stream_send_failure_panics :
    forwardLoop (fun m : Nat => Addr.send false (ReplyFate.delivered m)) [0]
      = ([], some "Failed to enqueue message for actor. Receiver must be dead.")
    ∧ (forwardLoop (fun m : Nat => Addr.send false (ReplyFate.delivered m)) [0]).2
      ≠ none :=
  ⟨rfl, by decide⟩

/-- Helper: when every `send` succeeds, the forwarding loop sends exactly
the stream items, in stream order, with no panic. -/
theorem aux_forwardLoop_all_ok (r : M → R) :
    ∀ items : List M,
      forwardLoop (fun m => Addr.send true (ReplyFate.delivered (r m))) items
        = (items, none) := by
  intro items
  induction items with
  | nil => rfl
  | cons m ms ih =>
      simp [Addr.send, MessageQueue.send, oneshotRecvUnwrap] at ih
      simp [forwardLoop, Addr.send, MessageQueue.send, oneshotRecvUnwrap, ih]

/-- Helper: the receive loop dispatches exactly the queued messages, in
queue order. -/
theorem aux_runnerRecvLoop_handledMsgs (a : ActorImpl S M R) :
    ∀ (s : S) (msgs : List M),
      handledMsgsE (runnerRecvLoop a s msgs).2 = msgs := by
  intro s msgs
  induction msgs generalizing s with
  | nil => rfl
  | cons m ms ih => simp [runnerRecvLoop, handledMsgsE, ih]

/-- C6 (amended): the forwarding task of `add_stream` awaits `send` once per
stream item, in stream order; while the task holds its strong address every
send succeeds, so a finite stream of `K` items is forwarded whole, and the
run loop dispatches exactly those `K` envelopes, in order — one handler
invocation per item. (The claim is amended only in its failure clause: on a
delivery failure the code panics instead of terminating silently, see the
counterexample.) -/
theorem add_stream_forwards_all_items :
    ∀ (S M R : Type) (a : ActorImpl S M R) (s : S) (r : M → R) (items : List M),
      forwardLoop (fun m => Addr.send true (ReplyFate.delivered (r m))) items
        = (items, none)
      ∧ handledMsgsE (actor_runner_loop a s items).2 = items
      ∧ (((actor_runner_loop a s items).2.filter (fun e => e.isHandled)).length
          = items.length) := by
  intro S M R a s r items
  refine ⟨aux_forwardLoop_all_ok r items, ?_, ?_⟩
  · simp [actor_runner_loop, handledMsgsE,
      aux_runnerRecvLoop_handledMsgs a (a.started s) items]
  · simpa [actor_runner_loop, Event.isHandled]
      using aux_runnerRecvLoop_handled_count a (a.started s) items

/-- Helper: the forwarding task never drops its strong address while the
stream can still yield an item. -/
theorem aux_forwardTask_held (items : List M) :
    ∀ k : Nat, (forwardTaskStates items k).held = true
      ∨ (forwardTaskStates items k).remaining = [] := by
  intro k
  induction k with
  | zero => exact Or.inl rfl
  | succ j ih =>
      rcases hst : forwardTaskStates items j with ⟨h, rem⟩
      rw [hst] at ih
      cases rem with
      | nil =>
          right
          simp [forwardTaskStates, hst, ForwardTask.step]
      | cons m ms =>
          rcases ih with hheld | hrem
          · left
            simp only at hheld
            simp [forwardTaskStates, hst, ForwardTask.step, hheld]
          · simp at hrem

/-- C10: at every point at which the adopted stream can still yield an item,
the forwarding task spawned by `add_stream` still owns the strong address it
upgraded before spawning, so the strong count of the mailbox is positive no
matter how many external strong addresses remain: the mailbox can never
close — and the actor can never terminate — while forwarding is under way. -/
theorem add_stream_task_keeps_mailbox_open :
    ∀ (M : Type) (items : List M) (k : Nat),
      (forwardTaskStates items k).remaining ≠ []
      → (forwardTaskStates items k).held = true
        ∧ ∀ ext : Nat, mailboxClosed ext (forwardTaskStates items k) = false := by
  intro M items k hrem
  have hheld : (forwardTaskStates items k).held = true :=
    (aux_forwardTask_held items k).resolve_right hrem
  refine ⟨hheld, ?_⟩
  intro ext
  simp [mailboxClosed, totalStrong, hheld]

/-- Witness for C10: after one step on the two-item stream `[7, 8]` the
stream can still yield an item and the mailbox is open even with zero
external strong addresses. -/
theorem add_stream_task_keeps_mailbox_open_witness :
    (forwardTaskStates [7, 8] 1).remaining ≠ []
    ∧ mailboxClosed 0 (forwardTaskStates [7, 8] 1) = false :=
  ⟨by decide, (add_stream_task_keeps_mailbox_open Nat [7, 8] 1 (by decide)).2 0⟩

/-- C8: `Addr::downgrade` yields a weak address to the same mailbox and
leaves the strong-count heap unchanged, and `WeakAddr::upgrade` yields some
strong address exactly when the strong count of its mailbox is positive —
at least one strong address alive elsewhere — and that strong address points
to the same mailbox. -/
theorem downgrade_upgrade_refcount_spec :
    ∀ (w : ArcWorld) (a : Addr) (wa : WeakAddr),
      (Addr.downgrade w a).1 = w
      ∧ ((Addr.downgrade w a).2).target = a.target
      ∧ ((WeakAddr.upgrade w wa).2.isSome ↔ 0 < w.strong wa.target)
      ∧ (∀ a2 : Addr, (WeakAddr.upgrade w wa).2 = some a2
          → a2.target = wa.target) := by
  intro w a wa
  refine ⟨rfl, rfl, ?_, ?_⟩
  · unfold WeakAddr.upgrade
    split
    · simpa
    · simp_all
  · intro a2 h2
    unfold WeakAddr.upgrade at h2
    split at h2
    · simp at h2
      exact h2 ▸ rfl
    · simp at h2

/-- Witness for C8: in the world with one strong reference per mailbox, the
upgrade of a weak address to mailbox `0` succeeds and targets mailbox `0`. -/
theorem downgrade_upgrade_refcount_spec_witness :
    (WeakAddr.upgrade liveWorld { target := 0 }).2 = some { target := 0 }
    ∧ ({ target := 0 } : Addr).target = ({ target := 0 } : WeakAddr).target :=
  ⟨rfl,
    (downgrade_upgrade_refcount_spec liveWorld { target := 0 } { target := 0 }).2.2.2
      { target := 0 } rfl⟩

/-- C9: `ActorContext::address` — and the identical upgrade-and-unwrap at
the head of `add_stream` — is partial: invoked while no strong address to
the actor is alive it panics on unwrapping the failed weak upgrade, and only
with a positive strong count does it return a strong address, to the same
mailbox. -/
theorem context_address_partiality :
    ∀ (w : ArcWorld) (ctx : WeakAddr),
      (w.strong ctx.target = 0
        → ActorContext.address w ctx = Except.error "called unwrap on a None value")
      ∧ (0 < w.strong ctx.target
        → ∃ (w2 : ArcWorld) (a : Addr),
            ActorContext.address w ctx = Except.ok (w2, a)
            ∧ a.target = ctx.target) := by
  intro w ctx
  constructor
  · intro h0
    unfold ActorContext.address WeakAddr.upgrade
    simp [h0]
  · intro hpos
    refine ⟨{ strong := fun i => if i = ctx.target then w.strong i + 1 else w.strong i },
      { target := ctx.target }, ?_, rfl⟩
    unfold ActorContext.address WeakAddr.upgrade
    simp [hpos]

/-- Witness for C9: in the dead world the self-address call panics; in the
live world it returns a strong address to the same mailbox. -/
theorem context_address_partiality_witness :
    (deadWorld.strong 0 = 0)
    ∧ ActorContext.address deadWorld { target := 0 }
        = Except.error "called unwrap on a None value"
    ∧ (0 < liveWorld.strong 0)
    ∧ ∃ (w2 : ArcWorld) (a : Addr),
        ActorContext.address liveWorld { target := 0 } = Except.ok (w2, a)
        ∧ a.target = ({ target := 0 } : WeakAddr).target :=
  ⟨rfl,
    (context_address_partiality deadWorld { target := 0 }).1 rfl,
    by decide,
    (context_address_partiality liveWorld { target := 0 }).2 (by decide)⟩

/-- Helper: `handledMsgs` distributes over trace concatenation. -/
theorem aux_handledMsgs_append (l1 l2 : List (LEvent M R)) :
    handledMsgs (l1 ++ l2) = handledMsgs l1 ++ handledMsgs l2 := by
  induction l1 with
  | nil => rfl
  | cons e es ih => cases e <;> simp [handledMsgs, ih]

/-- Helper: `enqueuedMsgs` distributes over trace concatenation. -/
theorem aux_enqueuedMsgs_append (l1 l2 : List (LEvent M R)) :
    enqueuedMsgs (l1 ++ l2) = enqueuedMsgs l1 ++ enqueuedMsgs l2 := by
  induction l1 with
  | nil => rfl
  | cons e es ih => cases e <;> simp [enqueuedMsgs, ih]

/-- Helper: `countRestarts` adds up over trace concatenation. -/
theorem aux_countRestarts_append (l1 l2 : List (LEvent M R)) :
    countRestarts (l1 ++ l2) = countRestarts l1 + countRestarts l2 := by
  induction l1 with
  | nil => simp [countRestarts]
  | cons e es ih =>
      cases e <;> simp [countRestarts, ih]
      omega

/-- Helper: `countStops` adds up over trace concatenation. -/
theorem aux_countStops_append (l1 l2 : List (LEvent M R)) :
    countStops (l1 ++ l2) = countStops l1 + countStops l2 := by
  induction l1 with
  | nil => simp [countStops]
  | cons e es ih =>
      cases e <;> simp [countStops, ih]
      omega

/-- Helper: one iteration of the lifecycle loop conserves envelopes: the
messages it dispatches prepended to the remaining queue equal the prior
queue followed by what it enqueued (nothing). -/
theorem aux_loopStep_conservation (a : LifecycleActor S M R) (st : RunState S M) :
    handledMsgs (loopStep a st).2 ++ (loopStep a st).1.queue
      = st.queue ++ enqueuedMsgs (loopStep a st).2 := by
  rcases st with ⟨sa, q, ph, sr, cl⟩
  cases ph with
  | Starting => simp [loopStep, handledMsgs, enqueuedMsgs]
  | Running =>
      cases sr <;> cases cl <;> cases q <;>
        simp [loopStep, handledMsgs, enqueuedMsgs]
  | Stopping =>
      rcases hsh : a.stoppingHook sa with ⟨s2, v⟩
      cases v <;> simp [loopStep, hsh, handledMsgs, enqueuedMsgs]
  | Stopped => simp [loopStep, handledMsgs, enqueuedMsgs]

/-- Helper: one mailbox operation conserves envelopes, given that the loop
step does. -/
theorem aux_applyOpWith_conservation
    (step : RunState S M → RunState S M × List (LEvent M R))
    (hstep : ∀ st, handledMsgs (step st).2 ++ (step st).1.queue
      = st.queue ++ enqueuedMsgs (step st).2)
    (st : RunState S M) (op : MailOp M) :
    handledMsgs (applyOpWith step st op).2 ++ (applyOpWith step st op).1.queue
      = st.queue ++ enqueuedMsgs (applyOpWith step st op).2 := by
  cases op with
  | enq m =>
      by_cases hcl : st.closed = true
      · simp [applyOpWith, hcl, handledMsgs, enqueuedMsgs]
      · simp [applyOpWith, hcl, handledMsgs, enqueuedMsgs]
  | close => simp [applyOpWith, handledMsgs, enqueuedMsgs]
  | step => exact hstep st

/-- Helper: any interleaving of enqueues, closure and loop iterations
conserves envelopes. -/
theorem aux_runOpsWith_conservation
    (step : RunState S M → RunState S M × List (LEvent M R))
    (hstep : ∀ st, handledMsgs (step st).2 ++ (step st).1.queue
      = st.queue ++ enqueuedMsgs (step st).2) :
    ∀ (st : RunState S M) (ops : List (MailOp M)),
      handledMsgs (runOpsWith step st ops).2 ++ (runOpsWith step st ops).1.queue
        = st.queue ++ enqueuedMsgs (runOpsWith step st ops).2 := by
  intro st ops
  induction ops generalizing st with
  | nil => simp [runOpsWith, handledMsgs, enqueuedMsgs]
  | cons op ops ih =>
      simp only [runOpsWith]
      rw [aux_handledMsgs_append, aux_enqueuedMsgs_append, List.append_assoc,
        ih (applyOpWith step st op).1, ← List.append_assoc,
        aux_applyOpWith_conservation step hstep st op, List.append_assoc]

/-- C3: whenever the lifecycle run loop observes a stop condition it moves
into stop negotiation without touching the mailbox; it then invokes the
`stopping` hook, whose verdict `Continue` returns the actor — with the state
the hook produced — to `Running` with the queue intact; and over any
interleaving of enqueues, closure and loop iterations, over any number of
cycles through `Stopping`, the dispatched messages followed by the remaining
queue are exactly the prior queue followed by the enqueued messages: no
envelope enqueued before or during `Stopping` is dropped, reordered or
duplicated, and the mailbox is never drained during stop negotiation. -/
theorem stopping_negotiation_preserves_envelopes :
    (∀ (S M R : Type) (a : LifecycleActor S M R) (st : RunState S M),
        st.phase = ActorState.Running
        → (st.stopRequested || (st.closed && st.queue.isEmpty)) = true
        → (loopStep a st).1.phase = ActorState.Stopping
          ∧ (loopStep a st).1.queue = st.queue)
    ∧ (∀ (S M R : Type) (a : LifecycleActor S M R) (st : RunState S M),
        st.phase = ActorState.Stopping
        → LEvent.stoppingInvoked (M := M) (R := R) (a.stoppingHook st.actor).2
              ∈ (loopStep a st).2
          ∧ ((a.stoppingHook st.actor).2 = Stopping.Continue
            → (loopStep a st).1.phase = ActorState.Running
              ∧ (loopStep a st).1.queue = st.queue
              ∧ (loopStep a st).1.actor = (a.stoppingHook st.actor).1))
    ∧ (∀ (S M R : Type) (a : LifecycleActor S M R) (st : RunState S M)
          (ops : List (MailOp M)),
        handledMsgs (runOpsWith (loopStep a) st ops).2
            ++ (runOpsWith (loopStep a) st ops).1.queue
          = st.queue ++ enqueuedMsgs (runOpsWith (loopStep a) st ops).2) := by
  refine ⟨?_, ?_, ?_⟩
  · intro S M R a st hph hcond
    rcases st with ⟨sa, q, ph, sr, cl⟩
    subst hph
    simp only at hcond
    simp [loopStep, hcond]
  · intro S M R a st hph
    rcases st with ⟨sa, q, ph, sr, cl⟩
    subst hph
    rcases hsh : a.stoppingHook sa with ⟨s2, v⟩
    cases v with
    | Stop =>
        refine ⟨?_, ?_⟩
        · simp [loopStep, hsh]
        · intro hcont
          simp at hcont
    | Continue =>
        refine ⟨?_, fun _ => ?_⟩
        · simp [loopStep, hsh]
        · refine ⟨?_, ?_, ?_⟩ <;> simp [loopStep, hsh]
  · intro S M R a st ops
    exact aux_runOpsWith_conservation (loopStep a) (aux_loopStep_conservation a) st ops

/-- Witness for C3: the concrete always-continue lifecycle actor: a stop
request moves the loop into `Stopping` with the two-message queue intact,
and the `Continue` verdict returns it to `Running`, again with the queue
intact and the state the hook produced. -/
theorem stopping_negotiation_preserves_envelopes_witness :
    ((loopStep demoLifecycle demoRunningStop).1.phase = ActorState.Stopping
      ∧ (loopStep demoLifecycle demoRunningStop).1.queue = demoRunningStop.queue)
    ∧ ((loopStep demoLifecycle demoStoppingSt).1.phase = ActorState.Running
      ∧ (loopStep demoLifecycle demoStoppingSt).1.queue = demoStoppingSt.queue
      ∧ (loopStep demoLifecycle demoStoppingSt).1.actor
          = (demoLifecycle.stoppingHook demoStoppingSt.actor).1) :=
  ⟨stopping_negotiation_preserves_envelopes.1 Nat Nat Nat demoLifecycle
      demoRunningStop rfl rfl,
    (stopping_negotiation_preserves_envelopes.2.1 Nat Nat Nat demoLifecycle
      demoStoppingSt rfl).2 rfl⟩

/-- Helper: the trace and final state of a run decompose along an append of
operation scripts. -/
theorem aux_runOpsWith_append
    (step : RunState S M → RunState S M × List (LEvent M R)) :
    ∀ (l1 l2 : List (MailOp M)) (st : RunState S M),
      runOpsWith step st (l1 ++ l2)
        = ((runOpsWith step (runOpsWith step st l1).1 l2).1,
          (runOpsWith step st l1).2
            ++ (runOpsWith step (runOpsWith step st l1).1 l2).2) := by
  intro l1
  induction l1 with
  | nil => intro l2 st; simp [runOpsWith]
  | cons op ops ih =>
      intro l2 st
      simp [runOpsWith, ih, List.append_assoc]

/-- Helper: one kill cycle on a quiescent supervised actor enqueues the
kill, dispatches it, observes the stop request, and restarts the live
instance in place, ending quiescent again. -/
theorem aux_supervised_killCycle (onStart onKill onRestart onStop : S → S) (s : S) :
    runOpsWith (supervisedLoopStep (superviseKill onStart onKill onRestart onStop))
        (runningState s) killCycle
      = (runningState (onRestart (onKill s)),
        [LEvent.enqueued (), LEvent.handled () (), LEvent.restartingInvoked]) := rfl

/-- Helper: `m` consecutive kill cycles restart the live instance exactly
`m` times, never run the `stopped` hook, and leave the actor quiescent with
the `m`-fold restarted state. -/
theorem aux_supervised_cycles (onStart onKill onRestart onStop : S → S) :
    ∀ (m : Nat) (s : S),
      (runOpsWith (supervisedLoopStep (superviseKill onStart onKill onRestart onStop))
          (runningState s) (List.replicate m killCycle).flatten).1
        = runningState (restartIter (fun x => onRestart (onKill x)) m s)
      ∧ countRestarts
          (runOpsWith (supervisedLoopStep (superviseKill onStart onKill onRestart onStop))
            (runningState s) (List.replicate m killCycle).flatten).2 = m
      ∧ countStops
          (runOpsWith (supervisedLoopStep (superviseKill onStart onKill onRestart onStop))
            (runningState s) (List.replicate m killCycle).flatten).2 = 0 := by
  intro m
  induction m with
  | zero => intro s; exact ⟨rfl, rfl, rfl⟩
  | succ k ih =>
      intro s
      have hflat : (List.replicate (k + 1) killCycle).flatten
          = killCycle ++ (List.replicate k killCycle).flatten := by
        simp [List.replicate_succ]
      rw [hflat, aux_runOpsWith_append, aux_supervised_killCycle]
      obtain ⟨ih1, ih2, ih3⟩ := ih (onRestart (onKill s))
      refine ⟨?_, ?_, ?_⟩
      · rw [ih1, restartIter]
      · rw [aux_countRestarts_append, ih2,
          show countRestarts ([LEvent.enqueued (), LEvent.handled () (),
            LEvent.restartingInvoked] : List (LEvent Unit Unit)) = 1 from rfl]
        omega
      · rw [aux_countStops_append, ih3,
          show countStops ([LEvent.enqueued (), LEvent.handled () (),
            LEvent.restartingInvoked] : List (LEvent Unit Unit)) = 0 from rfl]

/-- Helper: teardown of a quiescent supervised actor after the last strong
handle is dropped: closure is observed, the `stopped` hook runs once, the
loop terminates. -/
theorem aux_supervised_teardown (onStart onKill onRestart onStop : S → S) (s : S) :
    runOpsWith (supervisedLoopStep (superviseKill onStart onKill onRestart onStop))
        (runningState s) [MailOp.close, MailOp.step, MailOp.step]
      = ({ actor := onStop s
           queue := []
           phase := ActorState.Stopped
           stopRequested := false
           closed := true },
        [LEvent.stoppedHook]) := rfl

/-- C7: a supervised actor whose `stopping` is not overridden, spawned once
from its factory state `s0` and subjected to `m` consecutive
internally-triggered stop requests, runs `restarting` exactly `m` times, on
the same live instance — the final state is the `m`-fold in-place mutation
of the started factory state, never a fresh factory product — and its
`stopped` hook and destruction run exactly once, after the final strong
handle is dropped, with the run loop ending in the terminal phase. -/
theorem supervised_restarts_m_times :
    ∀ (S : Type) (onStart onKill onRestart onStop : S → S) (s0 : S) (m : Nat),
      countRestarts
          (runOpsWith (supervisedLoopStep (superviseKill onStart onKill onRestart onStop))
            (initState s0) (killScript m)).2 = m
      ∧ countStops
          (runOpsWith (supervisedLoopStep (superviseKill onStart onKill onRestart onStop))
            (initState s0) (killScript m)).2 = 1
      ∧ (runOpsWith (supervisedLoopStep (superviseKill onStart onKill onRestart onStop))
            (initState s0) (killScript m)).1.actor
          = onStop (restartIter (fun x => onRestart (onKill x)) m (onStart s0))
      ∧ (runOpsWith (supervisedLoopStep (superviseKill onStart onKill onRestart onStop))
            (initState s0) (killScript m)).1.phase = ActorState.Stopped := by
  intro S onStart onKill onRestart onStop s0 m
  have hstart : runOpsWith (supervisedLoopStep (superviseKill onStart onKill onRestart onStop))
      (initState s0) [MailOp.step]
      = (runningState (onStart s0), [LEvent.startedHook]) := rfl
  obtain ⟨hc1, hc2, hc3⟩ :=
    aux_supervised_cycles onStart onKill onRestart onStop m (onStart s0)
  unfold killScript
  rw [aux_runOpsWith_append, aux_runOpsWith_append, hstart]
  dsimp only
  rw [hc1, aux_supervised_teardown]
  dsimp only
  refine ⟨?_, ?_, rfl, rfl⟩
  · rw [aux_countRestarts_append, aux_countRestarts_append, hc2,
      show countRestarts ([LEvent.startedHook] : List (LEvent Unit Unit)) = 0 from rfl,
      show countRestarts ([LEvent.stoppedHook] : List (LEvent Unit Unit)) = 0 from rfl]
    omega
  · rw [aux_countStops_append, aux_countStops_append, hc3,
      show countStops ([LEvent.startedHook] : List (LEvent Unit Unit)) = 0 from rfl,
      show countStops ([LEvent.stoppedHook] : List (LEvent Unit Unit)) = 1 from rfl]

end Aspartam
